import Mathlib

/-!
Verification development for `JDD_scheduler.py` (Simkern/JDD).

The script is a linear pipeline: load a CSV of talks, build a timed schedule
(inserting a lunch break and a coffee break), print a console summary, and —
after a yes/no confirmation — render the schedule to a LaTeX document.

Times are modelled as minutes since midnight of the start day (`Nat`); the
Python code uses `datetime` values obtained from `strptime "%H:%M"` plus
`timedelta(minutes=...)`, whose ordering and addition agree with this model.
Durations (`TIME` column) are modelled as `Nat`, matching the spec's data
model ("duration in minutes (positive integer)").
-/

namespace JDD

/-- The construction site of a schedule entry: the scheduler appends talk
entries, a lunch-break entry, and a coffee-break entry at three distinct
places.  This tag records which site produced the entry; no computation of
the pipeline reads it (the renderer and summary dispatch on the `Speaker`
string, exactly as the Python code does). -/
inductive EntryKind where
  | talk
  | lunch
  | coffee
deriving DecidableEq

/-- One row of the input CSV (columns FIRSTNAME, LASTNAME, TITLE, TIME,
ONLINE).  The implicit row id is the position in the list, matching
`df.insert(0, "ID", range(len(df)))`. -/
structure TalkRecord where
  FIRSTNAME : String
  LASTNAME : String
  TITLE : String
  TIME : Nat
  ONLINE : Int
deriving DecidableEq

/-- One schedule entry: the dict
`{"Speaker": …, "Title": …, "Start": …, "End": …, "ID": …, "Online": …}`
built by the scheduling loop, plus the ghost `kind` tag. -/
structure Entry where
  kind : EntryKind
  Speaker : String
  Title : String
  Start : Nat
  End : Nat
  ID : Int
  Online : Int
deriving DecidableEq

/-- `datetime.strptime("09:25", "%H:%M")` as minutes since midnight. -/
def START_TIME : Nat := 9 * 60 + 25

/-- `datetime.strptime("12:00", "%H:%M")`. -/
def LUNCH_START : Nat := 12 * 60

/-- `datetime.strptime("14:00", "%H:%M")`. -/
def LUNCH_END : Nat := 14 * 60

/-- `datetime.strptime("15:40", "%H:%M")`. -/
def COFFEE_START : Nat := 15 * 60 + 40

/-- `datetime.strptime("16:00", "%H:%M")`. -/
def COFFEE_END : Nat := 16 * 60

/-- The fixed per-talk padding: `duration = int(row["TIME"]) + 10`. -/
def PADDING : Nat := 10

/-- The lunch-break dict appended by the loop. -/
def lunchEntry : Entry :=
  { kind := .lunch, Speaker := "--- Lunch Break ---", Title := "",
    Start := LUNCH_START, End := LUNCH_END, ID := -1, Online := -1 }

/-- The coffee-break dict appended by the loop. -/
def coffeeEntry : Entry :=
  { kind := .coffee, Speaker := "--- Coffee Break ---", Title := "",
    Start := COFFEE_START, End := COFFEE_END, ID := -1, Online := -1 }

/-- The talk dict appended by the loop:
`{"Speaker": f"{row['FIRSTNAME']} {row['LASTNAME']}", "Title": row["TITLE"],
"Start": current_time, "End": end_time, "ID": idx, "Online": row["ONLINE"]}`. -/
def mkTalk (row : TalkRecord) (idx : Int) (s e : Nat) : Entry :=
  { kind := .talk, Speaker := row.FIRSTNAME ++ " " ++ row.LASTNAME,
    Title := row.TITLE, Start := s, End := e, ID := idx, Online := row.ONLINE }

/-- `df.iloc[idx]`: positional row access with Python semantics — a
non-negative index must be `< len(df)`, a negative index counts from the end
and must be `≥ -len(df)`; anything else raises `IndexError`. -/
def ilocGet (df : List TalkRecord) (idx : Int) : Option TalkRecord :=
  if 0 ≤ idx then df.get? idx.toNat
  else if idx.natAbs ≤ df.length then df.get? (df.length - idx.natAbs)
  else none

/-- One break check of the loop body:
`if current_time <= BREAK_START and end_time > BREAK_START:` append the break
dict, set `current_time = BREAK_END` (the recomputation of `end_time` is the
caller adding `dur` to the returned time). -/
def breakCheck (bStart bEnd : Nat) (brk : Entry) (sched : List Entry)
    (t dur : Nat) : List Entry × Nat :=
  if t ≤ bStart ∧ bStart < t + dur then (sched ++ [brk], bEnd) else (sched, t)

/-- One iteration of `for idx in order:` — fetch the row, compute the padded
duration, run the lunch check then the coffee check (each recomputing the
tentative end time), then append the talk and advance `current_time`. -/
def scheduleStep (df : List TalkRecord) (st : List Entry × Nat) (idx : Int) :
    Option (List Entry × Nat) :=
  match ilocGet df idx with
  | none => none
  | some row =>
    let dur := row.TIME + PADDING
    let s1 := breakCheck LUNCH_START LUNCH_END lunchEntry st.1 st.2 dur
    let s2 := breakCheck COFFEE_START COFFEE_END coffeeEntry s1.1 s1.2 dur
    some (s2.1 ++ [mkTalk row idx s2.2 (s2.2 + dur)], s2.2 + dur)

/-- The scheduling loop over `order`, threading `(schedule, current_time)`;
`none` models the run aborting with an uncaught `IndexError`. -/
def runSchedule (df : List TalkRecord) (st : List Entry × Nat) :
    List Int → Option (List Entry × Nat)
  | [] => some st
  | idx :: rest =>
    match scheduleStep df st idx with
    | none => none
    | some st' => runSchedule df st' rest

/-- The full schedule construction: loop from `([], START_TIME)` and keep the
schedule list. -/
def buildSchedule (df : List TalkRecord) (order : List Int) :
    Option (List Entry) :=
  (runSchedule df ([], START_TIME) order).map Prod.fst

/-- The hard-coded example speaking order of the script. -/
def presentationOrder : List Int := [3, 2, 6, 10, 11, 4, 0, 1, 5, 9, 8, 7]

/-- Python's substring test `pat in s`. -/
def containsSub (s pat : String) : Bool :=
  s.data.tails.any (fun t => pat.data.isPrefixOf t)

/-- The decimal digit character for `n ≤ 9` (clamped at `'9'`; the pipeline
only applies it to values `< 10`). -/
def digitChar : Nat → Char
  | 0 => '0' | 1 => '1' | 2 => '2' | 3 => '3' | 4 => '4'
  | 5 => '5' | 6 => '6' | 7 => '7' | 8 => '8' | _ => '9'

/-- Numeric value of a decimal digit character. -/
def charVal (c : Char) : Nat := c.toNat - 48

/-- Decimal digits of `n`, most significant first; `fuel` bounds the
recursion (any `fuel > n` is enough). -/
def natToDigitsGo : Nat → Nat → List Char
  | _, 0 => []
  | n, fuel + 1 =>
    if n < 10 then [digitChar n]
    else natToDigitsGo (n / 10) fuel ++ [digitChar (n % 10)]

/-- Decimal digits of `n`, e.g. `natToDigits 120 = ['1','2','0']`. -/
def natToDigits (n : Nat) : List Char := natToDigitsGo n (n + 1)

/-- Python `str(n)` / `"%d" % n` for a non-negative integer. -/
def natStr (n : Nat) : String := String.mk (natToDigits n)

/-- Python `str(i)` / `"%d" % i` for an integer (minus sign for negatives). -/
def intRepr (i : Int) : String :=
  if i < 0 then "-" ++ natStr i.natAbs else natStr i.toNat

/-- Python format spec `:3d` — right-align in a field of width 3, padding
with spaces (a longer number is not truncated). -/
def padInt3 (i : Int) : String :=
  String.mk (List.replicate (3 - (intRepr i).length) ' ') ++ intRepr i

/-- Python format spec `:20s` — left-align in a field of width 20. -/
def padRight20 (s : String) : String :=
  s ++ String.mk (List.replicate (20 - s.length) ' ')

/-- Two-digit zero-padded decimal, as produced by `strftime` fields. -/
def two (n : Nat) : String := if n < 10 then "0" ++ natStr n else natStr n

/-- `strftime('%H')`: the hour of day (a `datetime` carries the day, so the
hour wraps modulo 24 when the timeline passes midnight). -/
def fmtH (t : Nat) : String := two (t / 60 % 24)

/-- `strftime('%M')`: the minute. -/
def fmtM (t : Nat) : String := two (t % 60)

/-- `strftime('%H:%M')`. -/
def fmtHM (t : Nat) : String := fmtH t ++ ":" ++ fmtM t

/-- The `\begin{tabularx}` line of the renderer, with the two configurable
column widths interpolated (f-string of lines 116 and 127). -/
def tabularOpen (timeColWidth speakerColWidth : String) : String :=
  "\\begin\x7btabularx\x7d\x7b\\linewidth\x7d\x7b@\x7b\x7d>\x7b\\bfseries\x7dp\x7b"
    ++ timeColWidth
    ++ "\x7d >\x7b\\raggedright\\arraybackslash\x7dp\x7b"
    ++ speakerColWidth ++ "\x7d X@\x7b\x7d\x7d"

/-- The ` HH\,h\,MM — HH\,h\,MM` time range used in both separator boxes. -/
def sepTimes (s e : Nat) : String :=
  " " ++ fmtH s ++ "\\,h\\," ++ fmtM s ++ " — " ++ fmtH e ++ "\\,h\\," ++ fmtM e

/-- The fragment lines the renderer appends for an entry whose `Speaker`
contains `"Lunch"`: close the morning `tabularx`, emit the lunch separator
box, reopen an afternoon `tabularx` (lines 121–128). -/
def lunchFrags (timeColWidth speakerColWidth : String) (s e : Nat) :
    List String :=
  ["\\bottomrule\\\\[-6mm]",
   "\\end\x7btabularx\x7d\n",
   "\\begin\x7bseparatorbox\x7d[colback=accent!10,colframe=accent!50]",
   sepTimes s e ++ " \\quad Pause déjeuner",
   "\\end\x7bseparatorbox\x7d\n",
   "\\noindent\\textbf\x7bAprès-midi\x7d\\par\\smallskip",
   tabularOpen timeColWidth speakerColWidth,
   "\\toprule"]

/-- The fragment lines the renderer appends for an entry whose `Speaker`
contains `"Coffee"` (and not `"Lunch"`): a full-width `\multicolumn{3}{…}`
separator box inside the current `tabularx` (lines 130–132). -/
def coffeeFrags (s e : Nat) : List String :=
  ["\\multicolumn\x7b3\x7d\x7b@\x7b\x7dl@\x7b\x7d\x7d\x7b\\begin\x7bseparatorbox\x7d[colback=brand!6,colframe=brand!30]",
   sepTimes s e ++ " \\quad Pause café",
   "\\end\x7bseparatorbox\x7d\x7d\\\\[2mm]"]

/-- The single `\talk`/`\onlinetalk` row appended for every other entry
(lines 134–138). -/
def talkRow (ent : Entry) : String :=
  "\\" ++ (if ent.Online = 1 then "onlinetalk" else "talk")
    ++ "\x7b" ++ fmtH ent.Start ++ "\x7d\x7b" ++ fmtM ent.Start
    ++ "\x7d\x7b" ++ ent.Speaker ++ "\x7d\x7b" ++ ent.Title ++ "\x7d"


/-- The static LaTeX document header (the raw string `header`, lines 25–109
of the source, verbatim). -/
def headerText : String :=
  "% JDD Generator\n" ++
  "% 11/2025: v0.0: Erwan ZAMORA MEDINA \n" ++
  "% 11/2025: v0.1: Simon KERN\n" ++
  "%\n" ++
  "\\documentclass[11pt,a4paper]\x7barticle\x7d\n" ++
  "% --- Encoding & language ---\n" ++
  "\\usepackage[T1]\x7bfontenc\x7d\n" ++
  "\\usepackage[utf8]\x7binputenc\x7d\n" ++
  "\\usepackage[french]\x7bbabel\x7d\n" ++
  "\\usepackage\x7blmodern\x7d\n" ++
  "\\usepackage\x7bmicrotype\x7d\n" ++
  "\\usepackage[a4paper,margin=20mm]\x7bgeometry\x7d\n" ++
  "\\usepackage\x7bxcolor\x7d\n" ++
  "% RED HESAM/CNAM FOR M2N\n" ++
  "\\definecolor\x7bredHESAM\x7d\x7bRGB\x7d\x7b210,0,37\x7d\n" ++
  "\\definecolor\x7bbrand\x7d\x7bHTML\x7d\x7b0B7BD0\x7d \n" ++
  "\\definecolor\x7bbrandlight\x7d\x7bHTML\x7d\x7bEAF4FC\x7d\n" ++
  "\\definecolor\x7baccent\x7d\x7bHTML\x7d\x7bFF7A59\x7d \n" ++
  "%%%%%%%%%%%%%%%%%%%%%%%%%%%%%%%%%%%%%%%%%%%%\n" ++
  "%--- Typography & rules ---\n" ++
  "\\usepackage\x7btitlesec\x7d\n" ++
  "\\titleformat\x7b\\section\x7d\n" ++
  "  \x7b\\Large\\bfseries\\color\x7bbrand\x7d\x7d\n" ++
  "  \x7b\\thesection\x7d\x7b1em\x7d\x7b\x7d\n" ++
  "\\titleformat\x7b\\subsection\x7d\n" ++
  "  \x7b\\large\\bfseries\\color\x7bbrand\x7d\x7d\n" ++
  "  \x7b\\thesubsection\x7d\x7b1em\x7d\x7b\x7d\n" ++
  "\\usepackage\x7benumitem\x7d\n" ++
  "\\setlist[itemize]\x7blabel=\\textbullet, leftmargin=1.2em\x7d\n" ++
  "%% Beautiful color box :)\n" ++
  "\\usepackage\x7btcolorbox\x7d\n" ++
  "\\tcbuselibrary\x7bskins,breakable\x7d\n" ++
  "\\usepackage\x7btabularx\x7d\n" ++
  "\\usepackage\x7bbooktabs\x7d\n" ++
  "\\usepackage\x7barray\x7d\n" ++
  "%%%%%%%%%%%%%%%%%%%%%%%%%%%%%%%%%%%%%%%%%%%%\n" ++
  "% --- Logos & header ---\n" ++
  "\\usepackage\x7bgraphicx\x7d\n" ++
  "\\usepackage\x7bfancyhdr\x7d\n" ++
  "\\graphicspath\x7b\x7b./\x7d \x7b../\x7d \x7b./logos/\x7d\x7d %Repertoire des images\n" ++
  "\\newlength\\logoh\n" ++
  "\\setlength\x7b\\logoh\x7d\x7b12mm\x7d % logo height (adjust as needed)\n" ++
  "\\newcommand\x7b\\LeftLogo\x7d\x7b\x7d\n" ++
  "\\newcommand\x7b\\RightLogo\x7d\x7b\x7d\n" ++
  "\\newcommand\x7b\\setlogos\x7d[2]\x7b\\renewcommand\x7b\\LeftLogo\x7d\x7b#1\x7d\\renewcommand\x7b\\RightLogo\x7d\x7b#2\x7d\x7d\n" ++
  "\\pagestyle\x7bfancy\x7d\n" ++
  "\\fancyhf\x7b\x7d\n" ++
  "\\renewcommand\x7b\\headrulewidth\x7d\x7b0pt\x7d\n" ++
  "\\setlength\x7b\\headheight\x7d\x7b18mm\x7d % must be >= logo height\n" ++
  "\\setlength\x7b\\headsep\x7d\x7b1mm\x7d\n" ++
  "\\lhead\x7b\\ifx\\LeftLogo\\empty\\relax\\else\\includegraphics[height=\\logoh]\x7b\\LeftLogo\x7d\\fi\x7d\n" ++
  "\\rhead\x7b\\ifx\\RightLogo\\empty\\relax\\else\\includegraphics[height=\\logoh]\x7b\\RightLogo\x7d\\fi\x7d\n" ++
  "%%%%%%%%%%%%%%%%%%%%%%%%%%%%%%%%%%%%%%%%%%%%\n" ++
  "% Define template boxes s...\n" ++
  "\\newtcolorbox\x7beventheader\x7d[1][]\x7benhanced, colback=brandlight, colframe=brand, boxrule=0.7pt, arc=2mm, left=3mm, right=3mm, top=3mm, bottom=3mm, before skip=6pt, after skip=10pt, breakable, #1\x7d\n" ++
  "\\newtcolorbox\x7bseparatorbox\x7d[1][]\x7benhanced, colback=brand!6, colframe=brand!40, boxrule=0.5pt, arc=1.6mm, fontupper=\\bfseries, left=4mm,right=4mm,top=2.5mm,bottom=2.5mm, before skip=6pt, after skip=6pt, before upper=\\centering, #1\x7d\n" ++
  "\\renewcommand\x7b\\titleline\x7d\x7b\\par\\vspace\x7b2mm\x7d\\noindent\\color\x7bbrand\x7d\\rule\x7b\\linewidth\x7d\x7b0.9pt\x7d\\par\\vspace\x7b1mm\x7d\x7d\n" ++
  "\\newcolumntype\x7bL\x7d\x7b>\x7b\\raggedright\\arraybackslash\x7dX\x7d\n" ++
  "\\newcommand\x7b\\talk\x7d[4]\x7b\\textbf\x7b#1:#2\x7d & \\textbf\x7b#3\x7d & \\emph\x7b\\og #4 \\fg\x7d\\\\\x7d\n" ++
  "\\newcommand\x7b\\onlinetalk\x7d[4]\x7b\\textbf\x7b#1:#2\x7d & \\textbf\x7b#3\x7d & \\emph\x7b\\og #4 \\fg\x7d \\textbf\x7b(online)\x7d\\\\\x7d\n" ++
  "%%%%%%%%%%%%%%%%%%%%%%%%%%%%%%%%%%%%%%%%%%%%\n" ++
  "\\newcommand\x7b\\EventTitle\x7d\x7bJournée des doctorants \\the\\year\\, \\textendash\\, Planning\x7d\n" ++
  "\\newcommand\x7b\\EventDate\x7d\x7bLundi 17~novembre~2025\x7d % change as needed\n" ++
  "\\newcommand\x7b\\EventOrg\x7d\x7bDynFluid\x7d                % change as needed\n" ++
  "\\newcommand\x7b\\EventPlace\x7d\x7bAmphi Pinel\x7d           % change as needed\n" ++
  "%%%%%%%%%%%%%%%%%%%%%%%%%%%%%%%%%%%%%%%%%%%%\n" ++
  "\\begin\x7bdocument\x7d\n" ++
  "\\setlogos\x7blogos/dynfluid_980.png\x7d\x7blogos/m2n_1.png\x7d\n" ++
  "\\sffamily\n" ++
  "\n" ++
  "% Title\n" ++
  "\x7b\\huge\\bfseries\\color\x7bredHESAM\x7d \\EventTitle\\par\x7d\n" ++
  "\\vspace*\x7b-3mm\x7d\n" ++
  "\\titleline\n" ++
  "\x7b\\large \\EventDate \\quad\\textcolor\x7bbrand\x7d\x7b\\textbullet\x7d\\quad \\EventPlace\\par\x7d\n" ++
  "\n" ++
  "% Header info\n" ++
  "\\begin\x7beventheader\x7d\n" ++
  "\\begin\x7bitemize\x7d[nosep]\n" ++
  "  \\item \\textbf\x7bAccueil \\EventOrg :\x7d Café — à partir de \\textbf\x7b9\\,h\\,00\x7d\n" ++
  "  \\item \\textbf\x7bDémarrage Teams :\x7d \\EventPlace\x7b\x7d — \\textbf\x7b9\\,h\\,25\x7d\n" ++
  "\\end\x7bitemize\x7d\n" ++
  "\\end\x7beventheader\x7d\n" ++
  "\\renewcommand\x7b\\arraystretch\x7d\x7b1.2\x7d\n" ++
  ""

/-- The static LaTeX document footer (the raw string `footer`, lines
143–148 of the source, verbatim). -/
def footerText : String :=
  "\n" ++
  "\\begin\x7bflushright\x7d\n" ++
  "\\small \\textcolor\x7bredHESAM!70\x7d\x7bContent coordinator: J. S. KERN. Artistic director: E. ZAMORA-MEDINA. \\today\x7d\n" ++
  "\\end\x7bflushright\x7d\n" ++
  "\\end\x7bdocument\x7d\n" ++
  ""


/-- The per-entry dispatch of the renderer's `for s in schedule:` loop:
`if "Lunch" in s["Speaker"] … elif "Coffee" in s["Speaker"] … else …`. -/
def entryFragments (timeColWidth speakerColWidth : String) (ent : Entry) :
    List String :=
  if containsSub ent.Speaker "Lunch" then
    lunchFrags timeColWidth speakerColWidth ent.Start ent.End
  else if containsSub ent.Speaker "Coffee" then
    coffeeFrags ent.Start ent.End
  else
    [talkRow ent]


/-- `generate_jdd_latex(schedule, time_col_width, speaker_col_width)`: the
full document text — static header, the schedule block (opening lines, the
per-entry fragments, the closing line), and the static footer, joined with
newlines exactly as `"\n".join([header] + latex + [footer])`.  The optional
`filename` side effect of the Python function is modelled in
`driverEffects`, which pairs this text with the write. -/
def generate_jdd_latex (schedule : List Entry)
    (timeColWidth speakerColWidth : String) : String :=
  let latex :=
    ["%Schedule block",
     "\\begin\x7btcolorbox\x7d[enhanced, breakable, colback=white, colframe=brand!50, boxrule=0.6pt, arc=2mm, left=3mm, right=3mm, top=2mm, bottom=2mm]\\vspace\x7b1mm\x7d",
     "\\noindent\\textbf\x7bMatinée\x7d\\par\\smallskip",
     tabularOpen timeColWidth speakerColWidth,
     "\\toprule"]
    ++ (schedule.map (entryFragments timeColWidth speakerColWidth)).flatten
    ++ ["\\bottomrule\n\\end\x7btabularx\x7d\n\\vspace\x7b1mm\x7d\n\\end\x7btcolorbox\x7d"]
  String.intercalate "\n" ([headerText] ++ latex ++ [footerText])

/-- The console-summary line for an entry whose `Speaker` contains
`"Lunch"` (line 221). -/
def lunchSummaryLine (s e : Nat) : String :=
  "\n" ++ fmtHM s ++ "–" ++ fmtHM e ++ "   Lunch Break\n"

/-- The console-summary line for an entry whose `Speaker` contains
`"Coffee"` and not `"Lunch"` (line 223). -/
def coffeeSummaryLine (s e : Nat) : String :=
  "\n" ++ fmtHM s ++ "–" ++ fmtHM e ++ "   Coffee Break\n"

/-- The console-summary line for every other entry (line 225):
`f"{Start:%H:%M}–{End:%H:%M} {ID:3d} {Speaker:20s} {Title}"`. -/
def talkSummaryLine (ent : Entry) : String :=
  fmtHM ent.Start ++ "–" ++ fmtHM ent.End ++ " " ++ padInt3 ent.ID ++ " "
    ++ padRight20 ent.Speaker ++ " " ++ ent.Title

/-- The per-entry dispatch of the summary-printing loop (lines 219–225),
which classifies entries by the same `Speaker`-substring tests as the
renderer. -/
def summaryLine (ent : Entry) : String :=
  if containsSub ent.Speaker "Lunch" then
    lunchSummaryLine ent.Start ent.End
  else if containsSub ent.Speaker "Coffee" then
    coffeeSummaryLine ent.Start ent.End
  else
    talkSummaryLine ent

/-- Python `str.strip`'s notion of whitespace (ASCII part). -/
def isPySpace (c : Char) : Bool :=
  c = ' ' || c = '\t' || c = '\n' || c = '\r' || c = '\x0b' || c = '\x0c'

/-- Python `resp.strip()` — drop leading and trailing whitespace. -/
def pyStrip (s : String) : String :=
  String.mk (((s.data.dropWhile isPySpace).reverse.dropWhile isPySpace).reverse)

/-- Python `resp.lower()` (ASCII case mapping). -/
def pyLower (s : String) : String := String.mk (s.data.map Char.toLower)

/-- An observable side effect of the driver: a line printed to standard
output, or a file written with some content. -/
inductive Effect where
  | printLine (s : String)
  | writeFile (path : String) (content : String)
deriving DecidableEq

/-- Whether an effect is a file write. -/
def Effect.isWrite : Effect → Bool
  | .printLine _ => false
  | .writeFile _ _ => true

/-- The console-summary output of the driver (lines 218–225): the heading
then one printed line per schedule entry. -/
def summaryEffects (schedule : List Entry) : List Effect :=
  Effect.printLine "\nGenerated Schedule:"
    :: schedule.map (fun s => Effect.printLine (summaryLine s))

/-- The driver tail (lines 217–236): print the summary, show the
confirmation prompt, and on `resp.strip().lower() == "yes"` write
`jdd_schedule.tex` and echo the LaTeX text, otherwise print `Exit.`.
Both branches fall off the end of the script, so the process terminates
normally (exit code 0) either way — modelled by this being a total
function. -/
def driverEffects (schedule : List Entry) (resp : String) : List Effect :=
  summaryEffects schedule
    ++ [Effect.printLine "\nCreate Latex output for this schedule? (yes/NO): "]
    ++ (if pyLower (pyStrip resp) = "yes" then
          [Effect.writeFile "jdd_schedule.tex"
             (generate_jdd_latex schedule "12mm" "48mm"),
           Effect.printLine "\n\n===== LaTeX Schedule Block =====\n",
           Effect.printLine (generate_jdd_latex schedule "12mm" "48mm"),
           Effect.printLine "\n================================"]
        else
          [Effect.printLine "\nExit."])

/-- Modelled from the spec: "re-parsing entry lines from the console
summary".  The repository has no parser; this decoder follows the summary
format — two `HH:MM` times joined by `–`, then for a talk line the
right-aligned integer id, and for a break line (recognised by its leading
blank line) the id `-1` that the scheduler gives every synthetic break.
`parse2` reads one two-digit field. -/
def parse2 : List Char → Option (Nat × List Char)
  | c1 :: c2 :: rest =>
    if c1.isDigit && c2.isDigit then
      some (charVal c1 * 10 + charVal c2, rest)
    else none
  | _ => none

/-- Consume one expected literal character. -/
def parseLit (c : Char) : List Char → Option (List Char)
  | d :: rest => if d = c then some rest else none
  | [] => none

/-- Parse `HH:MM` into minutes since midnight. -/
def parseHM (l : List Char) : Option (Nat × List Char) :=
  match parse2 l with
  | none => none
  | some (h, l1) =>
    match parseLit ':' l1 with
    | none => none
    | some l2 =>
      match parse2 l2 with
      | none => none
      | some (m, l3) => some (h * 60 + m, l3)

/-- Read a maximal run of decimal digits, left to right. -/
def readNatAux (acc : Nat) : List Char → Nat × List Char
  | c :: rest =>
    if c.isDigit then readNatAux (acc * 10 + charVal c) rest else (acc, c :: rest)
  | [] => (acc, [])

/-- Parse the `{ID:3d}` field: skip the alignment spaces, then read an
optionally negated decimal integer. -/
def parseId (l : List Char) : Option Int :=
  match l.dropWhile (fun c => c == ' ') with
  | [] => none
  | c :: rest =>
    if c = '-' then
      match rest with
      | [] => none
      | c2 :: rest2 =>
        if c2.isDigit then some (-(Int.ofNat (readNatAux 0 (c2 :: rest2)).1))
        else none
    else if c.isDigit then some (Int.ofNat (readNatAux 0 (c :: rest)).1)
    else none

/-- Decode a break summary line (after its leading newline): the two times;
the id of a synthetic break is `-1`. -/
def parseBreakLine (l : List Char) : Option (Nat × Nat × Int) :=
  match parseHM l with
  | none => none
  | some (s, l1) =>
    match parseLit '–' l1 with
    | none => none
    | some l2 =>
      match parseHM l2 with
      | none => none
      | some (e, _) => some (s, e, -1)

/-- Decode a talk summary line: the two times and the id field. -/
def parseTalkLine (l : List Char) : Option (Nat × Nat × Int) :=
  match parseHM l with
  | none => none
  | some (s, l1) =>
    match parseLit '–' l1 with
    | none => none
    | some l2 =>
      match parseHM l2 with
      | none => none
      | some (e, l3) =>
        match parseLit ' ' l3 with
        | none => none
        | some l4 =>
          match parseId l4 with
          | none => none
          | some i => some (s, e, i)

/-- Decode one summary line: break lines start with the blank line the
`print` emits before them, talk lines start with the hour digits. -/
def parseSummary (s : String) : Option (Nat × Nat × Int) :=
  if s.data.head? = some '\n' then parseBreakLine s.data.tail
  else parseTalkLine s.data

/-- Number of entries of a given construction kind in a schedule. -/
def countKind (k : EntryKind) (l : List Entry) : Nat :=
  l.countP (fun e => decide (e.kind = k))

/-- The loop invariant of the schedule-construction loop, over the state
`(schedule, current_time)`: entries are chained end-before-start, every
entry is a well-formed interval, the last entry ends no later than
`current_time`, each break occurs at most once and forces `current_time`
past its start once present, and break-kind entries are exactly the two
break dicts. -/
def LoopInv (st : List Entry × Nat) : Prop :=
  List.Chain' (fun a b => a.End ≤ b.Start) st.1 ∧
  (∀ e ∈ st.1, e.Start ≤ e.End) ∧
  (∀ e, st.1.getLast? = some e → e.End ≤ st.2) ∧
  countKind .lunch st.1 ≤ 1 ∧
  countKind .coffee st.1 ≤ 1 ∧
  (1 ≤ countKind .lunch st.1 → LUNCH_START < st.2) ∧
  (1 ≤ countKind .coffee st.1 → COFFEE_START < st.2) ∧
  (∀ e ∈ st.1, (e.kind = .lunch → e = lunchEntry) ∧
    (e.kind = .coffee → e = coffeeEntry))

lemma countKind_append_one (k : EntryKind) (l : List Entry) (e : Entry) :
    countKind k (l ++ [e]) = countKind k l + (if e.kind = k then 1 else 0) := by
  simp [countKind, List.countP_append, List.countP_cons]

lemma chain_append_one {sched : List Entry} {t : Nat} {ent : Entry}
    (hc : List.Chain' (fun a b => a.End ≤ b.Start) sched)
    (hlast : ∀ e, sched.getLast? = some e → e.End ≤ t)
    (h1 : t ≤ ent.Start) :
    List.Chain' (fun a b => a.End ≤ b.Start) (sched ++ [ent]) := by
  rw [List.chain'_append]
  refine ⟨hc, List.chain'_singleton ent, ?_⟩
  intro x hx y hy
  simp at hy
  subst hy
  exact le_trans (hlast x hx) h1

lemma getLast?_append_one (sched : List Entry) (ent : Entry) :
    (sched ++ [ent]).getLast? = some ent := by
  simp [List.getLast?_concat]

/-- Appending an entry that starts no earlier than the current time, and
setting the time to its end, preserves the interval part of the invariant. -/
lemma chainInv_append {sched : List Entry} {t : Nat} {ent : Entry}
    (hc : List.Chain' (fun a b => a.End ≤ b.Start) sched)
    (hse : ∀ e ∈ sched, e.Start ≤ e.End)
    (hlast : ∀ e, sched.getLast? = some e → e.End ≤ t)
    (h1 : t ≤ ent.Start) (h2 : ent.Start ≤ ent.End) :
    List.Chain' (fun a b => a.End ≤ b.Start) (sched ++ [ent]) ∧
    (∀ e ∈ sched ++ [ent], e.Start ≤ e.End) ∧
    (∀ e, (sched ++ [ent]).getLast? = some e → e.End ≤ ent.End) := by
  refine ⟨chain_append_one hc hlast h1, ?_, ?_⟩
  · intro e he
    rcases List.mem_append.mp he with h | h
    · exact hse e h
    · simp at h; subst h; exact h2
  · intro e he
    rw [getLast?_append_one] at he
    injection he with he'
    subst he'
    exact le_rfl

/-- Appending one entry that starts no earlier than `current_time` and
advancing `current_time` to its end preserves the loop invariant, provided
the kind-specific bookkeeping conditions hold. -/
lemma loopInv_append {sched : List Entry} {t : Nat} (ent : Entry)
    (h : LoopInv (sched, t))
    (h1 : t ≤ ent.Start) (h2 : ent.Start ≤ ent.End)
    (hl : ent.kind = EntryKind.lunch →
      ent = lunchEntry ∧ countKind EntryKind.lunch sched = 0 ∧
      LUNCH_START < ent.End)
    (hc : ent.kind = EntryKind.coffee →
      ent = coffeeEntry ∧ countKind EntryKind.coffee sched = 0 ∧
      COFFEE_START < ent.End) :
    LoopInv (sched ++ [ent], ent.End) := by
  obtain ⟨hch, hse, hlast, hcl, hcc, hil, hic, hke⟩ := h
  obtain ⟨hch', hse', hlast'⟩ := chainInv_append hch hse hlast h1 h2
  refine ⟨hch', hse', hlast', ?_, ?_, ?_, ?_, ?_⟩
  · rw [countKind_append_one]
    by_cases hk : ent.kind = EntryKind.lunch
    · rw [(hl hk).2.1]; simp [hk]
    · simpa [hk] using hcl
  · rw [countKind_append_one]
    by_cases hk : ent.kind = EntryKind.coffee
    · rw [(hc hk).2.1]; simp [hk]
    · simpa [hk] using hcc
  · rw [countKind_append_one]
    by_cases hk : ent.kind = EntryKind.lunch
    · intro _; exact (hl hk).2.2
    · simp only [hk, if_false, Nat.add_zero]
      intro hone
      exact lt_of_lt_of_le (hil hone) (le_trans h1 h2)
  · rw [countKind_append_one]
    by_cases hk : ent.kind = EntryKind.coffee
    · intro _; exact (hc hk).2.2
    · simp only [hk, if_false, Nat.add_zero]
      intro hone
      exact lt_of_lt_of_le (hic hone) (le_trans h1 h2)
  · intro e he
    rcases List.mem_append.mp he with hmem | hmem
    · exact hke e hmem
    · simp at hmem; subst hmem
      exact ⟨fun hk => (hl hk).1, fun hk => (hc hk).1⟩

/-- The two possible outcomes of one break check. -/
lemma breakCheck_cases (bS bE : Nat) (brk : Entry) (sched : List Entry)
    (t dur : Nat) :
    (breakCheck bS bE brk sched t dur = (sched, t) ∧
      ¬(t ≤ bS ∧ bS < t + dur)) ∨
    (breakCheck bS bE brk sched t dur = (sched ++ [brk], bE) ∧
      t ≤ bS ∧ bS < t + dur) := by
  unfold breakCheck
  by_cases hg : t ≤ bS ∧ bS < t + dur
  · right; exact ⟨if_pos hg, hg⟩
  · left; exact ⟨if_neg hg, hg⟩

/-- The lunch check preserves the loop invariant and never moves
`current_time` backwards. -/
lemma lunchCheck_inv (sched : List Entry) (t dur : Nat)
    (h : LoopInv (sched, t)) :
    LoopInv (breakCheck LUNCH_START LUNCH_END lunchEntry sched t dur) ∧
    t ≤ (breakCheck LUNCH_START LUNCH_END lunchEntry sched t dur).2 := by
  rcases breakCheck_cases LUNCH_START LUNCH_END lunchEntry sched t dur with
    ⟨heq, _⟩ | ⟨heq, hg1, _⟩
  · rw [heq]; exact ⟨h, le_rfl⟩
  · rw [heq]
    have h0 : countKind EntryKind.lunch sched = 0 := by
      rcases Nat.eq_zero_or_pos (countKind EntryKind.lunch sched) with h0 | hpos
      · exact h0
      · have := h.2.2.2.2.2.1 hpos
        exact absurd hg1 (by omega)
    have happ := loopInv_append lunchEntry h
      (by simpa [lunchEntry] using hg1)
      (by simp [lunchEntry, LUNCH_START, LUNCH_END])
      (fun _ => ⟨rfl, h0, by simp [lunchEntry, LUNCH_START, LUNCH_END]⟩)
      (fun hk => absurd hk (by simp [lunchEntry]))
    constructor
    · simpa [lunchEntry] using happ
    · have : t ≤ LUNCH_END := le_trans hg1 (by simp [LUNCH_START, LUNCH_END])
      simpa using this

/-- The coffee check preserves the loop invariant and never moves
`current_time` backwards. -/
lemma coffeeCheck_inv (sched : List Entry) (t dur : Nat)
    (h : LoopInv (sched, t)) :
    LoopInv (breakCheck COFFEE_START COFFEE_END coffeeEntry sched t dur) ∧
    t ≤ (breakCheck COFFEE_START COFFEE_END coffeeEntry sched t dur).2 := by
  rcases breakCheck_cases COFFEE_START COFFEE_END coffeeEntry sched t dur with
    ⟨heq, _⟩ | ⟨heq, hg1, _⟩
  · rw [heq]; exact ⟨h, le_rfl⟩
  · rw [heq]
    have h0 : countKind EntryKind.coffee sched = 0 := by
      rcases Nat.eq_zero_or_pos (countKind EntryKind.coffee sched) with h0 | hpos
      · exact h0
      · have := h.2.2.2.2.2.2.1 hpos
        exact absurd hg1 (by omega)
    have happ := loopInv_append coffeeEntry h
      (by simpa [coffeeEntry] using hg1)
      (by simp [coffeeEntry, COFFEE_START, COFFEE_END])
      (fun hk => absurd hk (by simp [coffeeEntry]))
      (fun _ => ⟨rfl, h0, by simp [coffeeEntry, COFFEE_START, COFFEE_END]⟩)
    constructor
    · simpa [coffeeEntry] using happ
    · have : t ≤ COFFEE_END := le_trans hg1 (by simp [COFFEE_START, COFFEE_END])
      simpa using this

/-- One loop iteration preserves the loop invariant and never moves
`current_time` backwards. -/
lemma scheduleStep_inv {df : List TalkRecord} {st st' : List Entry × Nat}
    {idx : Int} (h : LoopInv st) (hstep : scheduleStep df st idx = some st') :
    LoopInv st' ∧ st.2 ≤ st'.2 := by
  obtain ⟨sched, t⟩ := st
  unfold scheduleStep at hstep
  cases hrow : ilocGet df idx with
  | none => rw [hrow] at hstep; cases hstep
  | some row =>
    rw [hrow] at hstep
    simp only at hstep
    obtain ⟨h1, hm1⟩ := lunchCheck_inv sched t (row.TIME + PADDING) h
    obtain ⟨h2, hm2⟩ := coffeeCheck_inv
      (breakCheck LUNCH_START LUNCH_END lunchEntry sched t (row.TIME + PADDING)).1
      (breakCheck LUNCH_START LUNCH_END lunchEntry sched t (row.TIME + PADDING)).2
      (row.TIME + PADDING) h1
    set s2 := breakCheck COFFEE_START COFFEE_END coffeeEntry
      (breakCheck LUNCH_START LUNCH_END lunchEntry sched t (row.TIME + PADDING)).1
      (breakCheck LUNCH_START LUNCH_END lunchEntry sched t (row.TIME + PADDING)).2
      (row.TIME + PADDING) with hs2
    have h2' : LoopInv (s2.1, s2.2) := h2
    have htalk := loopInv_append
      (mkTalk row idx s2.2 (s2.2 + (row.TIME + PADDING)))
      h2'
      (by simp [mkTalk])
      (by simp [mkTalk])
      (fun hk => absurd hk (by simp [mkTalk]))
      (fun hk => absurd hk (by simp [mkTalk]))
    obtain rfl : (s2.1 ++ [mkTalk row idx s2.2 (s2.2 + (row.TIME + PADDING))],
        s2.2 + (row.TIME + PADDING)) = st' := by
      injection hstep
    constructor
    · exact htalk
    · have : t ≤ s2.2 := le_trans hm1 hm2
      simp only
      omega

/-- The initial loop state satisfies the invariant. -/
lemma loopInv_nil (t : Nat) : LoopInv ([], t) := by
  refine ⟨List.chain'_nil, ?_, ?_, ?_, ?_, ?_, ?_, ?_⟩ <;>
    simp [countKind]

/-- The whole loop preserves the invariant. -/
lemma runSchedule_inv {df : List TalkRecord} :
    ∀ {order : List Int} {st st' : List Entry × Nat}, LoopInv st →
      runSchedule df st order = some st' → LoopInv st' := by
  intro order
  induction order with
  | nil =>
    intro st st' h hr
    unfold runSchedule at hr
    injection hr with hr'
    exact hr' ▸ h
  | cons idx rest ih =>
    intro st st' h hr
    unfold runSchedule at hr
    cases hs : scheduleStep df st idx with
    | none => rw [hs] at hr; cases hr
    | some st1 =>
      rw [hs] at hr
      exact ih (scheduleStep_inv h hs).1 hr

/-- Every produced schedule satisfies the invariant at some final time. -/
lemma buildSchedule_inv {df : List TalkRecord} {order : List Int}
    {sched : List Entry} (h : buildSchedule df order = some sched) :
    ∃ t, LoopInv (sched, t) := by
  unfold buildSchedule at h
  cases hr : runSchedule df ([], START_TIME) order with
  | none => rw [hr] at h; cases h
  | some st =>
    rw [hr] at h
    injection h with h'
    have hinv := runSchedule_inv (loopInv_nil START_TIME) hr
    exact ⟨st.2, by rw [← h']; exact hinv⟩

/-- Entries chained end-before-start with well-formed intervals have
non-decreasing start times. -/
lemma chain_starts : ∀ (l : List Entry),
    List.Chain' (fun a b => a.End ≤ b.Start) l →
    (∀ e ∈ l, e.Start ≤ e.End) →
    List.Chain' (fun a b => a.Start ≤ b.Start) l := by
  intro l
  induction l with
  | nil => intro _ _; exact List.chain'_nil
  | cons a rest ih =>
    intro hch hse
    rw [List.chain'_cons'] at hch ⊢
    refine ⟨?_, ih hch.2 (fun e he => hse e (List.mem_cons_of_mem a he))⟩
    intro y hy
    have h1 : a.Start ≤ a.End := hse a (List.mem_cons_self a rest)
    exact le_trans h1 (hch.1 y hy)

/-- If some index of `order` is out of range for `df.iloc`, the loop fails. -/
lemma runSchedule_none_of_bad {df : List TalkRecord} {idx : Int} :
    ∀ {order : List Int} {st : List Entry × Nat}, idx ∈ order →
      ilocGet df idx = none → runSchedule df st order = none := by
  intro order
  induction order with
  | nil => intro st h _; cases h
  | cons j rest ih =>
    intro st hmem hbad
    unfold runSchedule
    rcases List.mem_cons.mp hmem with rfl | hmem'
    · unfold scheduleStep
      rw [hbad]
    · cases hs : scheduleStep df st j with
      | none => rfl
      | some st1 => exact ih hmem' hbad

/-- An index beyond either end of the table makes `df.iloc` raise. -/
lemma ilocGet_none_of_oob {df : List TalkRecord} {idx : Int}
    (h : (df.length : Int) ≤ idx ∨ idx < -(df.length : Int)) :
    ilocGet df idx = none := by
  unfold ilocGet
  rcases h with h | h
  · rw [if_pos (le_trans (Int.ofNat_nonneg df.length) h)]
    rw [List.get?_eq_none]
    omega
  · rw [if_neg (by omega)]
    rw [if_neg (by omega)]

/-- The console summary prints lines only; it never writes a file. -/
lemma summaryEffects_no_write (sched : List Entry) :
    (summaryEffects sched).countP Effect.isWrite = 0 := by
  simp only [summaryEffects, List.countP_cons, List.countP_map]
  simp [Effect.isWrite, Function.comp]

lemma digitChar_facts : ∀ n, n < 10 →
    (digitChar n).isDigit = true ∧ charVal (digitChar n) = n ∧
    digitChar n ≠ '\n' ∧ ((digitChar n) == ' ') = false ∧ digitChar n ≠ '-' := by
  decide

lemma natToDigitsGo_small (fuel m : Nat) (hf : 0 < fuel) (hm : m < 10) :
    natToDigitsGo m fuel = [digitChar m] := by
  cases fuel with
  | zero => omega
  | succ f => simp [natToDigitsGo, hm]

lemma natToDigitsGo_spec : ∀ fuel n, n < fuel →
    natToDigitsGo n fuel ≠ [] ∧
    (∀ c ∈ natToDigitsGo n fuel, c.isDigit = true) := by
  intro fuel
  induction fuel with
  | zero => intro n h; omega
  | succ f ih =>
    intro n h
    by_cases h10 : n < 10
    · rw [natToDigitsGo_small (f + 1) n (by omega) h10]
      refine ⟨by simp, ?_⟩
      intro c hc
      simp at hc
      subst hc
      exact (digitChar_facts n h10).1
    · have hdiv : n / 10 < f := by omega
      obtain ⟨hne, hdig⟩ := ih (n / 10) hdiv
      simp only [natToDigitsGo, h10, if_false]
      refine ⟨by simp, ?_⟩
      intro c hc
      rcases List.mem_append.mp hc with hmem | hmem
      · exact hdig c hmem
      · simp at hmem
        subst hmem
        exact (digitChar_facts (n % 10) (by omega)).1

lemma natToDigits_spec (n : Nat) :
    natToDigits n ≠ [] ∧ (∀ c ∈ natToDigits n, c.isDigit = true) :=
  natToDigitsGo_spec (n + 1) n (by omega)

lemma readNatAux_go : ∀ fuel n, n < fuel →
    ∃ k, ∀ acc rest,
      readNatAux acc (natToDigitsGo n fuel ++ rest)
        = readNatAux (acc * k + n) rest := by
  intro fuel
  induction fuel with
  | zero => intro n h; omega
  | succ f ih =>
    intro n h
    by_cases h10 : n < 10
    · refine ⟨10, fun acc rest => ?_⟩
      rw [natToDigitsGo_small (f + 1) n (by omega) h10]
      simp only [List.cons_append, List.nil_append, readNatAux]
      rw [if_pos (digitChar_facts n h10).1, (digitChar_facts n h10).2.1]
      rfl
    · obtain ⟨k, hk⟩ := ih (n / 10) (by omega)
      refine ⟨k * 10, fun acc rest => ?_⟩
      simp only [natToDigitsGo, h10, if_false, List.append_assoc,
        List.cons_append, List.nil_append]
      rw [hk acc (digitChar (n % 10) :: rest)]
      rw [readNatAux]
      rw [if_pos (digitChar_facts (n % 10) (by omega)).1,
        (digitChar_facts (n % 10) (by omega)).2.1]
      have harith : (acc * k + n / 10) * 10 + n % 10 = acc * (k * 10) + n := by
        have hmod : n / 10 * 10 + n % 10 = n := by omega
        calc (acc * k + n / 10) * 10 + n % 10
            = acc * (k * 10) + (n / 10 * 10 + n % 10) := by ring
          _ = acc * (k * 10) + n := by rw [hmod]
      rw [harith]

lemma readNat_digits (n : Nat) (rest : List Char) :
    readNatAux 0 (natToDigits n ++ rest) = readNatAux n rest := by
  obtain ⟨k, hk⟩ := readNatAux_go (n + 1) n (by omega)
  have h := hk 0 rest
  rw [natToDigits]
  rw [h, Nat.zero_mul, Nat.zero_add]

lemma readNatAux_stop (acc : Nat) (c : Char) (rest : List Char)
    (h : c.isDigit = false) :
    readNatAux acc (c :: rest) = (acc, c :: rest) := by
  rw [readNatAux, if_neg (by simp [h])]

lemma two_data (n : Nat) (h : n < 100) :
    (two n).data = [digitChar (n / 10), digitChar (n % 10)] := by
  by_cases h10 : n < 10
  · have hd : natToDigits n = [digitChar n] :=
      natToDigitsGo_small (n + 1) n (by omega) h10
    rw [two, if_pos h10]
    rw [Nat.div_eq_of_lt h10, Nat.mod_eq_of_lt h10]
    simp [natStr, hd]
    rfl
  · have hd : natToDigits n = [digitChar (n / 10), digitChar (n % 10)] := by
      rw [natToDigits]
      simp only [natToDigitsGo, h10, if_false]
      rw [natToDigitsGo_small n (n / 10) (by omega) (by omega)]
      rfl
    rw [two, if_neg h10]
    simp only [natStr]
    rw [hd]

lemma parse2_two (n : Nat) (h : n < 100) (rest : List Char) :
    parse2 ((two n).data ++ rest) = some (n, rest) := by
  rw [two_data n h]
  simp only [List.cons_append, List.nil_append, parse2]
  rw [if_pos]
  · rw [(digitChar_facts (n / 10) (by omega)).2.1,
      (digitChar_facts (n % 10) (by omega)).2.1]
    have hmod : n / 10 * 10 + n % 10 = n := by omega
    rw [hmod]
  · rw [(digitChar_facts (n / 10) (by omega)).1,
      (digitChar_facts (n % 10) (by omega)).1]
    rfl

lemma fmtHM_data (t : Nat) (h : t < 1440) :
    (fmtHM t).data = (two (t / 60)).data ++ ':' :: (two (t % 60)).data := by
  have h24 : t / 60 % 24 = t / 60 := Nat.mod_eq_of_lt (by omega)
  simp [fmtHM, fmtH, fmtM, h24]

lemma parseHM_fmt (t : Nat) (h : t < 1440) (rest : List Char) :
    parseHM ((fmtHM t).data ++ rest) = some (t, rest) := by
  rw [fmtHM_data t h, List.append_assoc, List.cons_append]
  unfold parseHM
  rw [parse2_two (t / 60) (by omega)]
  simp only [parseLit, if_pos]
  rw [parse2_two (t % 60) (by omega)]
  simp only []
  have hmod : t / 60 * 60 + t % 60 = t := by omega
  rw [hmod]

lemma dropWhile_space_replicate (k : Nat) (l : List Char) :
    List.dropWhile (fun c => c == ' ') (List.replicate k ' ' ++ l)
      = List.dropWhile (fun c => c == ' ') l := by
  induction k with
  | zero => simp
  | succ m ih =>
    rw [List.replicate_succ, List.cons_append, List.dropWhile_cons]
    simp [ih]

lemma isDigit_not_space {c : Char} (h : c.isDigit = true) :
    (c == ' ') = false := by
  rcases Bool.eq_false_or_eq_true (c == ' ') with ht | hf
  · have hce : c = ' ' := beq_iff_eq.mp ht
    subst hce
    simp [Char.isDigit] at h
  · exact hf

lemma isDigit_not_dash {c : Char} (h : c.isDigit = true) : c ≠ '-' := by
  intro hc
  subst hc
  simp [Char.isDigit] at h

lemma parseId_pad (i : Int) (rest : List Char) :
    parseId ((padInt3 i).data ++ ' ' :: rest) = some i := by
  have hdw0 : ∀ l : List Char,
      List.dropWhile (fun c => c == ' ') ((padInt3 i).data ++ l)
        = List.dropWhile (fun c => c == ' ') ((intRepr i).data ++ l) := by
    intro l
    simp only [padInt3, String.data_append, List.append_assoc]
    exact dropWhile_space_replicate _ _
  by_cases hneg : i < 0
  · have hrep : (intRepr i).data = '-' :: natToDigits i.natAbs := by
      rw [intRepr, if_pos hneg]
      rfl
    obtain ⟨hne, hdig⟩ := natToDigits_spec i.natAbs
    obtain ⟨c2, cs, hcons⟩ : ∃ c2 cs, natToDigits i.natAbs = c2 :: cs := by
      cases hx : natToDigits i.natAbs with
      | nil => exact absurd hx hne
      | cons a b => exact ⟨a, b, rfl⟩
    have hc2 : c2.isDigit = true :=
      hdig c2 (by rw [hcons]; exact List.mem_cons_self _ _)
    have hdrop : List.dropWhile (fun c => c == ' ')
        ((padInt3 i).data ++ ' ' :: rest)
        = '-' :: (c2 :: (cs ++ ' ' :: rest)) := by
      rw [hdw0, hrep, List.cons_append, List.dropWhile_cons]
      rw [show (('-' : Char) == ' ') = false from by decide]
      simp only [Bool.false_eq_true, if_false]
      rw [hcons]
      rfl
    have hval : readNatAux 0 (c2 :: (cs ++ ' ' :: rest))
        = (i.natAbs, ' ' :: rest) := by
      have h1 : c2 :: (cs ++ ' ' :: rest) = natToDigits i.natAbs ++ ' ' :: rest := by
        rw [hcons]
        rfl
      rw [h1, readNat_digits, readNatAux_stop _ _ _ (by decide)]
    simp only [parseId, hdrop]
    rw [if_pos trivial, if_pos hc2, hval]
    show some (-Int.ofNat i.natAbs) = some i
    congr 1
    rw [Int.ofNat_eq_coe]
    omega
  · have hrep : (intRepr i).data = natToDigits i.toNat := by
      rw [intRepr, if_neg hneg]
      rfl
    obtain ⟨hne, hdig⟩ := natToDigits_spec i.toNat
    obtain ⟨c2, cs, hcons⟩ : ∃ c2 cs, natToDigits i.toNat = c2 :: cs := by
      cases hx : natToDigits i.toNat with
      | nil => exact absurd hx hne
      | cons a b => exact ⟨a, b, rfl⟩
    have hc2 : c2.isDigit = true :=
      hdig c2 (by rw [hcons]; exact List.mem_cons_self _ _)
    have hdrop : List.dropWhile (fun c => c == ' ')
        ((padInt3 i).data ++ ' ' :: rest)
        = c2 :: (cs ++ ' ' :: rest) := by
      rw [hdw0, hrep, hcons, List.cons_append, List.dropWhile_cons]
      rw [isDigit_not_space hc2]
      simp only [Bool.false_eq_true, if_false]
    have hval : readNatAux 0 (c2 :: (cs ++ ' ' :: rest))
        = (i.toNat, ' ' :: rest) := by
      have h1 : c2 :: (cs ++ ' ' :: rest) = natToDigits i.toNat ++ ' ' :: rest := by
        rw [hcons]
        rfl
      rw [h1, readNat_digits, readNatAux_stop _ _ _ (by decide)]
    simp only [parseId, hdrop]
    rw [if_neg (isDigit_not_dash hc2), if_pos hc2, hval]
    show some (Int.ofNat i.toNat) = some i
    congr 1
    rw [Int.ofNat_eq_coe]
    omega

/-- A break summary line decodes to its two times and the break id `-1`,
whatever the caption text. -/
lemma parseSummary_break (s e : Nat) (hs : s < 1440) (he : e < 1440)
    (cap : String) :
    parseSummary ("\n" ++ fmtHM s ++ "–" ++ fmtHM e ++ cap)
      = some (s, e, -1) := by
  have hdata : ("\n" ++ fmtHM s ++ "–" ++ fmtHM e ++ cap).data
      = '\n' :: ((fmtHM s).data ++ ('–' :: ((fmtHM e).data ++ cap.data))) := by
    simp [String.data_append]
  have hcond : (("\n" ++ fmtHM s ++ "–" ++ fmtHM e ++ cap).data).head?
      = some '\n' := by
    rw [hdata]
    rfl
  unfold parseSummary
  rw [if_pos hcond, hdata]
  simp only [List.tail_cons]
  unfold parseBreakLine
  rw [parseHM_fmt s hs]
  simp only [parseLit, if_pos]
  rw [parseHM_fmt e he]

/-- C1: for every TalkRecord table with positive durations and every valid
presentation order (one the loop completes on), the Schedule produced by the
scheduling loop has non-decreasing start times, and for any two consecutive
entries the earlier entry's end time is ≤ the later entry's start time. -/
theorem C1_schedule_sorted_no_overlap (df : List TalkRecord)
    (order : List Int) (sched : List Entry)
    (_hpos : ∀ r ∈ df, 0 < r.TIME)
    (h : buildSchedule df order = some sched) :
    List.Chain' (fun a b => a.Start ≤ b.Start) sched ∧
    List.Chain' (fun a b => a.End ≤ b.Start) sched := by
  obtain ⟨t, hinv⟩ := buildSchedule_inv h
  exact ⟨chain_starts sched hinv.1 hinv.2.1, hinv.1⟩

theorem C1_schedule_sorted_no_overlap_witness :
    List.Chain' (fun a b => a.Start ≤ b.Start)
      [mkTalk ⟨"A", "B", "T1", 50, 0⟩ 0 565 625,
       mkTalk ⟨"C", "D", "T2", 20, 1⟩ 1 625 655] ∧
    List.Chain' (fun a b => a.End ≤ b.Start)
      [mkTalk ⟨"A", "B", "T1", 50, 0⟩ 0 565 625,
       mkTalk ⟨"C", "D", "T2", 20, 1⟩ 1 625 655] :=
  C1_schedule_sorted_no_overlap
    [⟨"A", "B", "T1", 50, 0⟩, ⟨"C", "D", "T2", 20, 1⟩] [0, 1]
    [mkTalk ⟨"A", "B", "T1", 50, 0⟩ 0 565 625,
     mkTalk ⟨"C", "D", "T2", 20, 1⟩ 1 625 655]
    (by decide) (by decide)

/-- C2: in each loop iteration, for lunch and (at the recomputed time) for
coffee, if `current_time ≤ break.start` and the tentative end time
`> break.start`, a break entry spanning exactly `[break.start, break.end]`
is inserted, `current_time` becomes `break.end`, and the talk is appended
using an end time recomputed from the new `current_time`; in particular a
step at 11:50 with a 30-minute slot inserts the lunch break `[12:00, 14:00]`
and schedules the talk at `[14:00, 14:30]`. -/
theorem C2_break_insertion_rule :
    (∀ (df : List TalkRecord) (sched : List Entry) (t : Nat) (idx : Int)
        (row : TalkRecord), ilocGet df idx = some row →
      t ≤ LUNCH_START → LUNCH_START < t + (row.TIME + PADDING) →
      breakCheck LUNCH_START LUNCH_END lunchEntry sched t (row.TIME + PADDING)
          = (sched ++ [lunchEntry], LUNCH_END) ∧
      lunchEntry.Start = LUNCH_START ∧ lunchEntry.End = LUNCH_END ∧
      scheduleStep df (sched, t) idx =
        some ((breakCheck COFFEE_START COFFEE_END coffeeEntry
            (sched ++ [lunchEntry]) LUNCH_END (row.TIME + PADDING)).1
          ++ [mkTalk row idx
               (breakCheck COFFEE_START COFFEE_END coffeeEntry
                 (sched ++ [lunchEntry]) LUNCH_END (row.TIME + PADDING)).2
               ((breakCheck COFFEE_START COFFEE_END coffeeEntry
                 (sched ++ [lunchEntry]) LUNCH_END (row.TIME + PADDING)).2
                 + (row.TIME + PADDING))],
          (breakCheck COFFEE_START COFFEE_END coffeeEntry
            (sched ++ [lunchEntry]) LUNCH_END (row.TIME + PADDING)).2
            + (row.TIME + PADDING))) ∧
    (∀ (sched : List Entry) (t dur : Nat),
      t ≤ COFFEE_START → COFFEE_START < t + dur →
      breakCheck COFFEE_START COFFEE_END coffeeEntry sched t dur
          = (sched ++ [coffeeEntry], COFFEE_END) ∧
      coffeeEntry.Start = COFFEE_START ∧ coffeeEntry.End = COFFEE_END) ∧
    runSchedule [⟨"A", "B", "T", 20, 0⟩] ([], 11 * 60 + 50) [0]
      = some ([lunchEntry, mkTalk ⟨"A", "B", "T", 20, 0⟩ 0 (14 * 60) (14 * 60 + 30)],
          14 * 60 + 30) := by
  refine ⟨?_, ?_, by decide⟩
  · intro df sched t idx row hrow hg1 hg2
    have hbc : breakCheck LUNCH_START LUNCH_END lunchEntry sched t
        (row.TIME + PADDING) = (sched ++ [lunchEntry], LUNCH_END) := by
      unfold breakCheck
      exact if_pos ⟨hg1, hg2⟩
    refine ⟨hbc, rfl, rfl, ?_⟩
    unfold scheduleStep
    rw [hrow]
    simp only [hbc]
  · intro sched t dur hg1 hg2
    have hbc : breakCheck COFFEE_START COFFEE_END coffeeEntry sched t dur
        = (sched ++ [coffeeEntry], COFFEE_END) := by
      unfold breakCheck
      exact if_pos ⟨hg1, hg2⟩
    exact ⟨hbc, rfl, rfl⟩

theorem C2_break_insertion_rule_witness :
    breakCheck LUNCH_START LUNCH_END lunchEntry [] 710 30
        = ([] ++ [lunchEntry], LUNCH_END) ∧
    lunchEntry.Start = LUNCH_START ∧ lunchEntry.End = LUNCH_END ∧
    scheduleStep [⟨"A", "B", "T", 20, 0⟩] ([], 710) 0 =
      some ((breakCheck COFFEE_START COFFEE_END coffeeEntry
          ([] ++ [lunchEntry]) LUNCH_END (20 + PADDING)).1
        ++ [mkTalk ⟨"A", "B", "T", 20, 0⟩ 0
             (breakCheck COFFEE_START COFFEE_END coffeeEntry
               ([] ++ [lunchEntry]) LUNCH_END (20 + PADDING)).2
             ((breakCheck COFFEE_START COFFEE_END coffeeEntry
               ([] ++ [lunchEntry]) LUNCH_END (20 + PADDING)).2
               + (20 + PADDING))],
        (breakCheck COFFEE_START COFFEE_END coffeeEntry
          ([] ++ [lunchEntry]) LUNCH_END (20 + PADDING)).2
          + (20 + PADDING)) :=
  C2_break_insertion_rule.1 [⟨"A", "B", "T", 20, 0⟩] [] 710 0
    ⟨"A", "B", "T", 20, 0⟩ (by decide) (by decide) (by decide)

/-- C3: every scheduled talk's slot length is the record's raw duration plus
the fixed 10-minute padding (`End = Start + TIME + 10`); a single talk of
raw duration 50 starting at 09:25 ends at 10:25 and triggers no break. -/
theorem C3_slot_is_duration_plus_padding :
    PADDING = 10 ∧
    (∀ (df : List TalkRecord) (sched : List Entry) (t : Nat) (idx : Int)
        (row : TalkRecord), ilocGet df idx = some row →
      ∃ pre t2, scheduleStep df (sched, t) idx =
          some (pre ++ [mkTalk row idx t2 (t2 + (row.TIME + PADDING))],
            t2 + (row.TIME + PADDING)) ∧
        (mkTalk row idx t2 (t2 + (row.TIME + PADDING))).End
          = (mkTalk row idx t2 (t2 + (row.TIME + PADDING))).Start
            + row.TIME + 10) ∧
    buildSchedule [⟨"A", "B", "T", 50, 0⟩] [0]
      = some [mkTalk ⟨"A", "B", "T", 50, 0⟩ 0 (9 * 60 + 25) (10 * 60 + 25)] ∧
    countKind EntryKind.lunch
      [mkTalk ⟨"A", "B", "T", 50, 0⟩ 0 (9 * 60 + 25) (10 * 60 + 25)] = 0 ∧
    countKind EntryKind.coffee
      [mkTalk ⟨"A", "B", "T", 50, 0⟩ 0 (9 * 60 + 25) (10 * 60 + 25)] = 0 := by
  refine ⟨rfl, ?_, by decide, by decide, by decide⟩
  intro df sched t idx row hrow
  refine ⟨(breakCheck COFFEE_START COFFEE_END coffeeEntry
      (breakCheck LUNCH_START LUNCH_END lunchEntry sched t (row.TIME + PADDING)).1
      (breakCheck LUNCH_START LUNCH_END lunchEntry sched t (row.TIME + PADDING)).2
      (row.TIME + PADDING)).1,
    (breakCheck COFFEE_START COFFEE_END coffeeEntry
      (breakCheck LUNCH_START LUNCH_END lunchEntry sched t (row.TIME + PADDING)).1
      (breakCheck LUNCH_START LUNCH_END lunchEntry sched t (row.TIME + PADDING)).2
      (row.TIME + PADDING)).2, ?_, ?_⟩
  · unfold scheduleStep
    rw [hrow]
  · simp only [mkTalk, PADDING]
    omega

theorem C3_slot_is_duration_plus_padding_witness :
    ∃ pre t2, scheduleStep [⟨"A", "B", "T", 50, 0⟩] ([], 565) 0 =
        some (pre ++ [mkTalk ⟨"A", "B", "T", 50, 0⟩ 0 t2 (t2 + (50 + PADDING))],
          t2 + (50 + PADDING)) ∧
      (mkTalk ⟨"A", "B", "T", 50, 0⟩ 0 t2 (t2 + (50 + PADDING))).End
        = (mkTalk ⟨"A", "B", "T", 50, 0⟩ 0 t2 (t2 + (50 + PADDING))).Start
          + 50 + 10 :=
  C3_slot_is_duration_plus_padding.2.1 [⟨"A", "B", "T", 50, 0⟩] [] 565 0
    ⟨"A", "B", "T", 50, 0⟩ (by decide)

/-- C4: no produced Schedule contains more than one lunch-break entry or
more than one coffee-break entry, and a break entry is only ever appended
when `current_time ≤` that break's configured start. -/
theorem C4_breaks_at_most_once (df : List TalkRecord) (order : List Int)
    (sched : List Entry) (_hpos : ∀ r ∈ df, 0 < r.TIME)
    (h : buildSchedule df order = some sched) :
    (countKind EntryKind.lunch sched ≤ 1 ∧
     countKind EntryKind.coffee sched ≤ 1) ∧
    (∀ (bS bE : Nat) (brk : Entry) (sch : List Entry) (t dur : Nat),
      (breakCheck bS bE brk sch t dur).1 ≠ sch → t ≤ bS) := by
  obtain ⟨t, hinv⟩ := buildSchedule_inv h
  refine ⟨⟨hinv.2.2.2.1, hinv.2.2.2.2.1⟩, ?_⟩
  intro bS bE brk sch t0 dur hne
  rcases breakCheck_cases bS bE brk sch t0 dur with ⟨heq, _⟩ | ⟨_, hg1, _⟩
  · exact absurd (by rw [heq]) hne
  · exact hg1

theorem C4_breaks_at_most_once_witness :
    countKind EntryKind.lunch
      [lunchEntry, coffeeEntry, mkTalk ⟨"A", "B", "Long", 200, 0⟩ 0 960 1170] ≤ 1 ∧
    countKind EntryKind.coffee
      [lunchEntry, coffeeEntry, mkTalk ⟨"A", "B", "Long", 200, 0⟩ 0 960 1170] ≤ 1 :=
  (C4_breaks_at_most_once [⟨"A", "B", "Long", 200, 0⟩] [0]
    [lunchEntry, coffeeEntry, mkTalk ⟨"A", "B", "Long", 200, 0⟩ 0 960 1170]
    (by decide) (by decide)).1

/-- C5 counterexample: the order entry `-1` names no ID of the one-row
table (its only ID is `0`), yet the loop does not abort — Python's
`df.iloc[-1]` indexes from the end, so the run produces a schedule. -/
theorem C5_counterexample :
    (-1 : Int) ∉ (List.range ([⟨"A", "B", "T", 20, 0⟩] : List TalkRecord).length).map Int.ofNat ∧
    buildSchedule [⟨"A", "B", "T", 20, 0⟩] [-1]
      = some [mkTalk ⟨"A", "B", "T", 20, 0⟩ (-1) (9 * 60 + 25) (9 * 60 + 55)] := by
  constructor
  · decide
  · decide

/-- C5 as amended: an order entry outside Python's positional range (at
least the table length, or below its negation) makes the loop abort with an
uncaught `IndexError` before any schedule exists, hence before rendering;
an in-range negative entry instead silently schedules a row from the end. -/
theorem C5_out_of_range_aborts (df : List TalkRecord) (order : List Int)
    (idx : Int) (hmem : idx ∈ order)
    (hbad : (df.length : Int) ≤ idx ∨ idx < -(df.length : Int)) :
    buildSchedule df order = none := by
  unfold buildSchedule
  rw [runSchedule_none_of_bad hmem (ilocGet_none_of_oob hbad)]
  rfl

theorem C5_out_of_range_aborts_witness :
    buildSchedule [⟨"A", "B", "T", 20, 0⟩] [5] = none :=
  C5_out_of_range_aborts [⟨"A", "B", "T", 20, 0⟩] [5] 5 (by decide) (by decide)

/-- C8: scheduling and rendering are deterministic pure functions — equal
inputs give an identical Schedule and identical document text. -/
theorem C8_deterministic (df df' : List TalkRecord) (order order' : List Int)
    (sched sched' : List Entry) (tw tw' sw sw' : String)
    (h1 : df = df') (h2 : order = order') :
    buildSchedule df order = buildSchedule df' order' ∧
    (sched = sched' → tw = tw' → sw = sw' →
      generate_jdd_latex sched tw sw = generate_jdd_latex sched' tw' sw') := by
  subst h1
  subst h2
  exact ⟨rfl, fun h3 h4 h5 => by rw [h3, h4, h5]⟩

theorem C8_deterministic_witness :
    buildSchedule [⟨"A", "B", "T", 50, 0⟩] [0]
        = buildSchedule [⟨"A", "B", "T", 50, 0⟩] [0] ∧
    generate_jdd_latex [] "12mm" "48mm" = generate_jdd_latex [] "12mm" "48mm" :=
  ⟨(C8_deterministic [⟨"A", "B", "T", 50, 0⟩] [⟨"A", "B", "T", 50, 0⟩] [0] [0]
      [] [] "12mm" "12mm" "48mm" "48mm" rfl rfl).1,
   (C8_deterministic [⟨"A", "B", "T", 50, 0⟩] [⟨"A", "B", "T", 50, 0⟩] [0] [0]
      [] [] "12mm" "12mm" "48mm" "48mm" rfl rfl).2 rfl rfl rfl⟩

/-- C6: in every produced Schedule the lunch-break entry is rendered by
closing the current `tabularx` block, emitting a separator fragment with the
formatted start–end time and the fixed caption, and reopening a new
`tabularx` block, while the coffee-break entry is rendered as a full-row
inline separator whose fragments neither close nor open a `tabularx`. -/
theorem C6_renderer_break_fragments (tw sw : String) (df : List TalkRecord)
    (order : List Int) (sched : List Entry) (e : Entry)
    (h : buildSchedule df order = some sched) (he : e ∈ sched) :
    (e.kind = EntryKind.lunch →
      e = lunchEntry ∧
      entryFragments tw sw e =
        ["\\bottomrule\\\\[-6mm]", "\\end\x7btabularx\x7d\n"]
        ++ ["\\begin\x7bseparatorbox\x7d[colback=accent!10,colframe=accent!50]",
            sepTimes e.Start e.End ++ " \\quad Pause déjeuner",
            "\\end\x7bseparatorbox\x7d\n"]
        ++ ["\\noindent\\textbf\x7bAprès-midi\x7d\\par\\smallskip",
            tabularOpen tw sw, "\\toprule"]) ∧
    (e.kind = EntryKind.coffee →
      e = coffeeEntry ∧
      entryFragments tw sw e =
        ["\\multicolumn\x7b3\x7d\x7b@\x7b\x7dl@\x7b\x7d\x7d\x7b\\begin\x7bseparatorbox\x7d[colback=brand!6,colframe=brand!30]",
         sepTimes e.Start e.End ++ " \\quad Pause café",
         "\\end\x7bseparatorbox\x7d\x7d\\\\[2mm]"] ∧
      (∀ f ∈ entryFragments tw sw e, containsSub f "tabularx" = false)) := by
  obtain ⟨t, hinv⟩ := buildSchedule_inv h
  have hke := hinv.2.2.2.2.2.2.2 e he
  constructor
  · intro hk
    have heq := hke.1 hk
    subst heq
    refine ⟨rfl, ?_⟩
    have hcond : containsSub lunchEntry.Speaker "Lunch" = true := by decide
    simp [entryFragments, hcond, lunchFrags]
  · intro hk
    have heq := hke.2 hk
    subst heq
    have hcondL : containsSub coffeeEntry.Speaker "Lunch" = false := by decide
    have hcondC : containsSub coffeeEntry.Speaker "Coffee" = true := by decide
    refine ⟨rfl, ?_, ?_⟩
    · simp [entryFragments, hcondL, hcondC, coffeeFrags]
    · intro f hf
      simp [entryFragments, hcondL, hcondC, coffeeFrags] at hf
      rcases hf with rfl | rfl | rfl <;> decide

theorem C6_renderer_break_fragments_witness :
    lunchEntry = lunchEntry ∧
    entryFragments "12mm" "48mm" lunchEntry =
      ["\\bottomrule\\\\[-6mm]", "\\end\x7btabularx\x7d\n"]
      ++ ["\\begin\x7bseparatorbox\x7d[colback=accent!10,colframe=accent!50]",
          sepTimes lunchEntry.Start lunchEntry.End ++ " \\quad Pause déjeuner",
          "\\end\x7bseparatorbox\x7d\n"]
      ++ ["\\noindent\\textbf\x7bAprès-midi\x7d\\par\\smallskip",
          tabularOpen "12mm" "48mm", "\\toprule"] :=
  (C6_renderer_break_fragments "12mm" "48mm" [⟨"A", "B", "Long", 200, 0⟩] [0]
    [lunchEntry, coffeeEntry, mkTalk ⟨"A", "B", "Long", 200, 0⟩ 0 960 1170]
    lunchEntry (by decide) (by decide)).1 rfl

/-- C7 counterexample: the response `" yes"` is not equal to `"yes"` even
case-insensitively (it differs by leading whitespace), yet the driver does
write the output file, because the code strips whitespace before
comparing. -/
theorem C7_counterexample :
    pyLower " yes" ≠ "yes" ∧ pyLower "yes" = "yes" ∧
    (driverEffects [] " yes").countP Effect.isWrite = 1 := by
  refine ⟨by decide, by decide, ?_⟩
  have hy : pyLower (pyStrip " yes") = "yes" := by decide
  simp [driverEffects, hy, List.countP_append, summaryEffects,
    List.countP_cons, Effect.isWrite]

/-- C7 as amended: when the response, stripped of surrounding whitespace
and lowercased, differs from `"yes"`, the driver performs no file write and
just prints `Exit.` after the already-printed console summary and prompt;
the file write happens exactly when the stripped, lowercased response is
`"yes"`. -/
theorem C7_confirmation_gate (sched : List Entry) (resp : String) :
    (pyLower (pyStrip resp) ≠ "yes" →
      (driverEffects sched resp).countP Effect.isWrite = 0 ∧
      driverEffects sched resp =
        summaryEffects sched ++
          [Effect.printLine "\nCreate Latex output for this schedule? (yes/NO): ",
           Effect.printLine "\nExit."]) ∧
    (0 < (driverEffects sched resp).countP Effect.isWrite ↔
      pyLower (pyStrip resp) = "yes") := by
  by_cases hy : pyLower (pyStrip resp) = "yes"
  · refine ⟨fun hne => absurd hy hne, ?_⟩
    simp [driverEffects, hy, List.countP_append, summaryEffects_no_write,
      List.countP_cons, Effect.isWrite]
  · refine ⟨fun _ => ⟨?_, ?_⟩, ?_⟩
    · simp [driverEffects, hy, List.countP_append, summaryEffects_no_write,
        List.countP_cons, Effect.isWrite]
    · simp [driverEffects, hy]
    · simp [driverEffects, hy, List.countP_append, summaryEffects_no_write,
        List.countP_cons, Effect.isWrite]

theorem C7_confirmation_gate_witness :
    (driverEffects [] "no").countP Effect.isWrite = 0 ∧
    driverEffects [] "no" =
      summaryEffects [] ++
        [Effect.printLine "\nCreate Latex output for this schedule? (yes/NO): ",
         Effect.printLine "\nExit."] :=
  (C7_confirmation_gate [] "no").1 (by decide)

/-- C10 counterexample: an entry whose Speaker is `"Lunch Coffee"` contains
`"Coffee"`, but both the renderer and the summary treat it as a lunch
break, not a coffee break — the `Lunch` test is checked first. -/
theorem C10_counterexample :
    containsSub
      ((⟨EntryKind.talk, "Lunch Coffee", "T", 0, 10, 5, 0⟩ : Entry).Speaker)
      "Coffee" = true ∧
    entryFragments "12mm" "48mm"
        ⟨EntryKind.talk, "Lunch Coffee", "T", 0, 10, 5, 0⟩
      = lunchFrags "12mm" "48mm" 0 10 ∧
    entryFragments "12mm" "48mm"
        ⟨EntryKind.talk, "Lunch Coffee", "T", 0, 10, 5, 0⟩
      ≠ coffeeFrags 0 10 ∧
    summaryLine ⟨EntryKind.talk, "Lunch Coffee", "T", 0, 10, 5, 0⟩
      = lunchSummaryLine 0 10 ∧
    summaryLine ⟨EntryKind.talk, "Lunch Coffee", "T", 0, 10, 5, 0⟩
      ≠ coffeeSummaryLine 0 10 := by
  refine ⟨by decide, by decide, by decide, by decide, by decide⟩

/-- C10 as amended: the renderer and the console summary classify an entry
purely by substring search on its Speaker — `"Lunch"` anywhere makes it a
lunch break; `"Coffee"` without `"Lunch"` makes it a coffee break; anything
else is a talk row — regardless of the entry's ID, Title, or Online fields
(the break renderings read only `Start` and `End`). -/
theorem C10_substring_classification (tw sw : String) (e : Entry) :
    (containsSub e.Speaker "Lunch" = true →
      entryFragments tw sw e = lunchFrags tw sw e.Start e.End ∧
      summaryLine e = lunchSummaryLine e.Start e.End) ∧
    (containsSub e.Speaker "Lunch" = false →
      containsSub e.Speaker "Coffee" = true →
      entryFragments tw sw e = coffeeFrags e.Start e.End ∧
      summaryLine e = coffeeSummaryLine e.Start e.End) ∧
    (containsSub e.Speaker "Lunch" = false →
      containsSub e.Speaker "Coffee" = false →
      entryFragments tw sw e = [talkRow e] ∧
      summaryLine e = talkSummaryLine e) := by
  refine ⟨fun h1 => ⟨?_, ?_⟩, fun h1 h2 => ⟨?_, ?_⟩, fun h1 h2 => ⟨?_, ?_⟩⟩
  · simp [entryFragments, h1]
  · simp [summaryLine, h1]
  · simp [entryFragments, h1, h2]
  · simp [summaryLine, h1, h2]
  · simp [entryFragments, h1, h2]
  · simp [summaryLine, h1, h2]

theorem C10_substring_classification_witness :
    entryFragments "12mm" "48mm" lunchEntry
        = lunchFrags "12mm" "48mm" lunchEntry.Start lunchEntry.End ∧
    summaryLine lunchEntry
        = lunchSummaryLine lunchEntry.Start lunchEntry.End :=
  (C10_substring_classification "12mm" "48mm" lunchEntry).1 (by decide)

/-- C9 counterexample: a talk entry whose times lie past midnight (here
start 24:00, end 25:00 of the start day) prints as `00:00–01:00 …` because
`strftime('%H:%M')` keeps only the hour of day, so re-parsing the summary
line recovers `(0, 60, 0)` instead of the entry's `(1440, 1500, 0)`. -/
theorem C9_counterexample :
    parseSummary (summaryLine ⟨EntryKind.talk, "A B", "T", 1440, 1500, 0, 0⟩)
      = some (0, 60, 0) ∧
    parseSummary (summaryLine ⟨EntryKind.talk, "A B", "T", 1440, 1500, 0, 0⟩)
      ≠ some (1440, 1500, 0) := by
  refine ⟨by decide, by decide⟩

/-- C9 as amended: for every entry whose start and end times lie within the
first day (< 24 h) and whose id is the breaks' `-1` whenever its Speaker
makes the summary print it as a break line, re-parsing its console-summary
line recovers exactly its start time, end time, and ID. -/
theorem C9_summary_roundtrip (e : Entry)
    (h1 : e.Start < 1440) (h2 : e.End < 1440)
    (hl : containsSub e.Speaker "Lunch" = true → e.ID = -1)
    (hc : containsSub e.Speaker "Coffee" = true → e.ID = -1) :
    parseSummary (summaryLine e) = some (e.Start, e.End, e.ID) := by
  unfold summaryLine
  by_cases hLun : containsSub e.Speaker "Lunch" = true
  · rw [if_pos hLun, hl hLun]
    unfold lunchSummaryLine
    exact parseSummary_break e.Start e.End h1 h2 "   Lunch Break\n"
  · rw [if_neg hLun]
    by_cases hCof : containsSub e.Speaker "Coffee" = true
    · rw [if_pos hCof, hc hCof]
      unfold coffeeSummaryLine
      exact parseSummary_break e.Start e.End h1 h2 "   Coffee Break\n"
    · rw [if_neg hCof]
      have hdata : (talkSummaryLine e).data
          = (fmtHM e.Start).data
            ++ ('–' :: ((fmtHM e.End).data
            ++ (' ' :: ((padInt3 e.ID).data
            ++ ' ' :: ((padRight20 e.Speaker).data
            ++ (' ' :: e.Title.data)))))) := by
        simp [talkSummaryLine, String.data_append]
      have hhd : (e.Start / 60 / 10) < 10 := by omega
      have hheadS : (fmtHM e.Start).data
          = digitChar (e.Start / 60 / 10)
            :: (digitChar (e.Start / 60 % 10)
              :: (':' :: (two (e.Start % 60)).data)) := by
        rw [fmtHM_data e.Start h1, two_data (e.Start / 60) (by omega)]
        rfl
      have hcond : ¬ ((talkSummaryLine e).data.head? = some '\n') := by
        rw [hdata, hheadS]
        intro hx
        simp only [List.cons_append, List.head?] at hx
        injection hx with hx'
        exact (digitChar_facts (e.Start / 60 / 10) hhd).2.2.1 hx'
      unfold parseSummary
      rw [if_neg hcond, hdata]
      unfold parseTalkLine
      rw [parseHM_fmt e.Start h1]
      simp only [parseLit, if_pos]
      rw [parseHM_fmt e.End h2]
      simp only [parseLit, if_pos]
      rw [parseId_pad e.ID
        ((padRight20 e.Speaker).data ++ (' ' :: e.Title.data))]

theorem C9_summary_roundtrip_witness :
    parseSummary (summaryLine ⟨EntryKind.talk, "Alice Smith", "My Talk", 565, 625, 3, 0⟩)
      = some ((⟨EntryKind.talk, "Alice Smith", "My Talk", 565, 625, 3, 0⟩ : Entry).Start,
          (⟨EntryKind.talk, "Alice Smith", "My Talk", 565, 625, 3, 0⟩ : Entry).End,
          (⟨EntryKind.talk, "Alice Smith", "My Talk", 565, 625, 3, 0⟩ : Entry).ID) :=
  C9_summary_roundtrip ⟨EntryKind.talk, "Alice Smith", "My Talk", 565, 625, 3, 0⟩
    (by decide) (by decide) (by decide) (by decide)

end JDD
